import Mathlib

/-!
Verification of the secure-transport core of SaneDataCommander:
the cipher plugins (src/Crypto.py), the per-source-IP sliding-window
security guard (src/NetworkSocketConnector.py, class NetworkSecurity),
the guarded receive path (NetworkSocketConnector.receive_stream) and
the length-prefixed framed client/server protocol
(src/SecureDataTransmitter.py).

Bytes are modelled as natural numbers and byte strings as lists of
naturals.  The AES block primitives live in external libraries
(cryptography, pycryptodome) and are therefore abstract parameters:
functions on byte lists carrying, as hypotheses, exactly the
round-trip and length facts those libraries guarantee.  Everything
else is translated directly from the Python source.
-/

namespace SaneData

/-- One byte of a Python bytes object. -/
abbrev Byte := Nat

/-! ## Cipher plugins (src/Crypto.py) -/

/-- XORPlugin.encrypt: each output byte is the input byte XOR the
configured key byte. -/
def xorEncrypt (xor_byte : Byte) (data : List Byte) : List Byte :=
  data.map (fun b => b ^^^ xor_byte)

/-- XORPlugin.decrypt: identical to encrypt (XOR is an involution). -/
def xorDecrypt (xor_byte : Byte) (data : List Byte) : List Byte :=
  data.map (fun b => b ^^^ xor_byte)

/-- Padding count used by AES_CBC_CryptographyPlugin.encrypt:
padding_length = 16 - (len(data) % 16). -/
def paddingLength (n : Nat) : Nat := 16 - n % 16

/-- Padded plaintext of AES_CBC_CryptographyPlugin.encrypt:
padded_data = data + bytes([padding_length] * padding_length). -/
def cbcPad (data : List Byte) : List Byte :=
  data ++ List.replicate (paddingLength data.length) (paddingLength data.length)

/-- AES_CBC_CryptographyPlugin.encrypt: pad to the 16-byte block
boundary, then encrypt with the library cipher (abstract parameter
libEnc). -/
def aesCbcEncrypt (libEnc : List Byte → List Byte) (data : List Byte) : List Byte :=
  libEnc (cbcPad data)

/-- Python slice xs[:-n]: empty for n = 0 (the slice is xs[:0]),
otherwise the first (length - n) elements, clamped to empty when
n exceeds the length. -/
def pySliceDropLast (xs : List Byte) (n : Nat) : List Byte :=
  if n = 0 then [] else xs.take (xs.length - n)

/-- AES_CBC_CryptographyPlugin.decrypt: decrypt with the library
cipher (abstract parameter libDec), read padding_length from
padded_data[-1] (an IndexError on empty data, modelled as none) and
return padded_data[:-padding_length].  No padding validation is
performed by the source. -/
def aesCbcDecrypt (libDec : List Byte → List Byte) (data : List Byte) :
    Option (List Byte) :=
  match (libDec data).getLast? with
  | none => none
  | some n => some (pySliceDropLast (libDec data) n)

/-- Python slice xs[-n:] for positive n: the last n elements (the
whole list when it is shorter than n). -/
def pyTakeLast (xs : List Byte) (n : Nat) : List Byte :=
  xs.drop (xs.length - n)

/-- AES_GCM_PycryptodomePlugin.encrypt: ciphertext plus 16-byte tag,
the library modelled by an abstract ciphertext function libCt and a
tag function libTag of the ciphertext. -/
def aesGcmEncrypt (libCt : List Byte → List Byte) (libTag : List Byte → List Byte)
    (data : List Byte) : List Byte :=
  libCt data ++ libTag (libCt data)

/-- AES_GCM_PycryptodomePlugin.decrypt: split tag = data[-16:] and
ciphertext = data[:-16], decrypt and verify; a verification failure
(raised as a library error) is modelled as none. -/
def aesGcmDecrypt (libDec : List Byte → List Byte) (libTag : List Byte → List Byte)
    (data : List Byte) : Option (List Byte) :=
  if libTag (data.take (data.length - 16)) = pyTakeLast data 16 then
    some (libDec (data.take (data.length - 16)))
  else
    none

/-! ## Security guard (src/NetworkSocketConnector.py, class NetworkSecurity)

The guard's mutable per-IP trackers are modelled by explicit state
passing: each operation takes the state (and the current clock value,
standing for time.time()) and returns its boolean verdict together
with the successor state.  A defaultdict of deques becomes a total
function from IP strings to lists (oldest entry first), defaulting to
the empty list. -/

structure NetworkSecurity where
  max_connections_per_ip : Nat
  max_data_per_ip : Nat
  timeout : Nat
  rate_window : Nat
  connection_tracker : String → List Nat
  data_tracker : String → List (Nat × Nat)

/-- Pruning loop of check_connection: pop entries from the left while
the head is strictly older than the rate window
(current_time - head > rate_window), stopping at the first fresh
entry. -/
def pruneConn (window now : Nat) : List Nat → List Nat
  | [] => []
  | t :: rest => if now - t > window then pruneConn window now rest else t :: rest

/-- Pruning loop of check_data_rate over (timestamp, byte_count)
entries. -/
def pruneData (window now : Nat) : List (Nat × Nat) → List (Nat × Nat)
  | [] => []
  | e :: rest => if now - e.1 > window then pruneData window now rest else e :: rest

/-- Write a new deque for one IP into the connection tracker map
(mutation of the defaultdict entry, modelled functionally). -/
def updateConn (s : NetworkSecurity) (ip : String) (l : List Nat) : NetworkSecurity :=
  { s with connection_tracker := fun i => if i = ip then l else s.connection_tracker i }

/-- Write a new deque for one IP into the data tracker map. -/
def updateData (s : NetworkSecurity) (ip : String) (l : List (Nat × Nat)) : NetworkSecurity :=
  { s with data_tracker := fun i => if i = ip then l else s.data_tracker i }

/-- NetworkSecurity.check_connection: prune old timestamps for the
client IP, reject when the pruned count reaches
max_connections_per_ip, otherwise record the current time and
accept. -/
def check_connection (s : NetworkSecurity) (client_ip : String) (now : Nat) :
    Bool × NetworkSecurity :=
  if (pruneConn s.rate_window now (s.connection_tracker client_ip)).length
      ≥ s.max_connections_per_ip then
    (false, updateConn s client_ip
      (pruneConn s.rate_window now (s.connection_tracker client_ip)))
  else
    (true, updateConn s client_ip
      (pruneConn s.rate_window now (s.connection_tracker client_ip) ++ [now]))

/-- NetworkSecurity.check_data_rate: prune old data entries for the
client IP, sum the remaining byte counts, reject when
total_data + data_size exceeds max_data_per_ip, otherwise record
(now, data_size) and accept. -/
def check_data_rate (s : NetworkSecurity) (client_ip : String)
    (data_size now : Nat) : Bool × NetworkSecurity :=
  if ((pruneData s.rate_window now (s.data_tracker client_ip)).map Prod.snd).sum
      + data_size > s.max_data_per_ip then
    (false, updateData s client_ip
      (pruneData s.rate_window now (s.data_tracker client_ip)))
  else
    (true, updateData s client_ip
      (pruneData s.rate_window now (s.data_tracker client_ip) ++ [(now, data_size)]))

/-- NetworkSecurity.validate_data: reject empty data and data longer
than max_data_per_ip, accept everything else. -/
def validate_data (s : NetworkSecurity) (data : List Byte) : Bool :=
  if data.isEmpty then false
  else if data.length > s.max_data_per_ip then false
  else true

/-- A sequence of check_connection calls for one IP at the given
times, returning the verdicts in order plus the final state. -/
def runConnCalls (s : NetworkSecurity) (ip : String) : List Nat → List Bool × NetworkSecurity
  | [] => ([], s)
  | t :: rest =>
    ((check_connection s ip t).1 :: (runConnCalls (check_connection s ip t).2 ip rest).1,
     (runConnCalls (check_connection s ip t).2 ip rest).2)

/-- Concrete guard state for witnesses: limit of 2 connections and
100 bytes per 10-second window, empty trackers. -/
def secSmall : NetworkSecurity :=
  { max_connections_per_ip := 2
    max_data_per_ip := 100
    timeout := 10
    rate_window := 10
    connection_tracker := fun _ => []
    data_tracker := fun _ => [] }

/-- Concrete guard state with zero connection quota and a tiny data
quota, used to exercise the rejection paths. -/
def secZero : NetworkSecurity :=
  { max_connections_per_ip := 0
    max_data_per_ip := 5
    timeout := 10
    rate_window := 10
    connection_tracker := fun _ => []
    data_tracker := fun _ => [] }

/-! ## Socket model (src/SecureDataTransmitter.py and
NetworkSocketConnector.receive_stream)

A connected TCP socket is modelled from the endpoint's perspective:
incoming holds every byte the peer will ever send before closing its
side (socket.recv(n) returns up to n of them, and the empty string
once they are exhausted — the peer-closed signal); sent records each
sendall payload; closed is the local close() flag (recv or sendall on
a locally closed socket raises socket.error); trace records the I/O
and security-check events of the run, for stating ordering
properties. -/

inductive NetEvent where
  | recvHeader (got : List Byte)
  | recvPayload (n : Nat) (got : List Byte)
  | recvRaw (got : List Byte)
  | sendFrame (data : List Byte)
  | checkRate (size : Nat) (ok : Bool)
  | validate (data : List Byte) (ok : Bool)
  | closeSock
  deriving DecidableEq

structure Sock where
  incoming : List Byte
  sent : List (List Byte)
  closed : Bool
  trace : List NetEvent
  deriving DecidableEq

/-- socket.close(). -/
def sockClose (st : Sock) : Sock :=
  { st with closed := true, trace := st.trace ++ [NetEvent.closeSock] }

/-- int.from_bytes(bs, byteorder='big'). -/
def fromBytesBE (bs : List Byte) : Nat :=
  bs.foldl (fun a b => a * 256 + b) 0

/-- n.to_bytes(4, byteorder='big'). -/
def toBytesBE4 (n : Nat) : List Byte :=
  [n / 16777216 % 256, n / 65536 % 256, n / 256 % 256, n % 256]

/-- The 4-byte length header read by recv(4). -/
def hdrOf (st : Sock) : List Byte := st.incoming.take 4

/-- The frame length decoded from the header. -/
def lenOf (st : Sock) : Nat := fromBytesBE (st.incoming.take 4)

/-- The ciphertext read by recv(length) after the header. -/
def payloadOf (st : Sock) : List Byte :=
  (st.incoming.drop 4).take (fromBytesBE (st.incoming.take 4))

/-- The echoed response frame of the server loop body:
4-byte big-endian length of the re-encrypted plaintext, then the
re-encrypted plaintext. -/
def echoFrame (enc dec : List Byte → List Byte) (ct : List Byte) : List Byte :=
  toBytesBE4 (enc (dec ct)).length ++ enc (dec ct)

/-- One iteration of the while-loop of
SecureDataTransmitter.start_server, returning the socket state after
the iteration and whether the loop continues.  Control flow of the
source: recv(4) raises on a locally closed socket (caught, break);
an empty header means the client disconnected (break); otherwise the
payload is read, decrypted, and echoed back re-encrypted; in every
path the finally clause closes the socket (client_socket is the same
object as socket, so the inner close-and-break branch is dead
code). -/
def serverStep (enc dec : List Byte → List Byte) (st : Sock) : Sock × Bool :=
  if st.closed then
    (sockClose st, false)
  else if st.incoming.take 4 = [] then
    (sockClose { st with
                 incoming := st.incoming.drop 4,
                 trace := st.trace ++ [NetEvent.recvHeader (st.incoming.take 4)] },
     false)
  else
    (sockClose
      { incoming := (st.incoming.drop 4).drop (lenOf st),
        sent := st.sent ++ [echoFrame enc dec (payloadOf st)],
        closed := st.closed,
        trace := st.trace ++ [NetEvent.recvHeader (hdrOf st),
          NetEvent.recvPayload (lenOf st) (payloadOf st),
          NetEvent.sendFrame (echoFrame enc dec (payloadOf st))] },
     true)

/-- The while-loop of start_server, fuel-bounded. -/
def serverLoop (enc dec : List Byte → List Byte) : Nat → Sock → Sock
  | 0, st => st
  | fuel + 1, st =>
    if (serverStep enc dec st).2 then serverLoop enc dec fuel (serverStep enc dec st).1
    else (serverStep enc dec st).1

/-- SecureDataTransmitter.start_server on one connected socket; the
fuel bound exceeds the number of iterations any input can drive. -/
def start_server (enc dec : List Byte → List Byte) (st : Sock) : Sock :=
  serverLoop enc dec (st.incoming.length + 2) st

/-- Response phase of SecureDataTransmitter.send_data: recv(4); an
empty read means the peer closed — return the empty byte string as a
normal (non-error) result; otherwise read the announced number of
bytes and return them decrypted. -/
def sendDataRecv (dec : List Byte → List Byte) (st : Sock) :
    Except Unit (List Byte × Sock) :=
  if st.incoming.take 4 = [] then
    Except.ok ([], { st with
                     incoming := st.incoming.drop 4,
                     trace := st.trace ++ [NetEvent.recvHeader (st.incoming.take 4)] })
  else
    Except.ok (dec ((st.incoming.drop 4).take (fromBytesBE (st.incoming.take 4))),
      { st with
        incoming := (st.incoming.drop 4).drop (fromBytesBE (st.incoming.take 4)),
        trace := st.trace ++ [NetEvent.recvHeader (st.incoming.take 4),
          NetEvent.recvPayload (fromBytesBE (st.incoming.take 4))
            ((st.incoming.drop 4).take (fromBytesBE (st.incoming.take 4)))] })

/-- SecureDataTransmitter.send_data: encrypt, sendall the
length-prefixed frame (socket.error, modelled as Except.error, when
the socket is closed), then run the response phase. -/
def send_data (enc dec : List Byte → List Byte) (st : Sock) (data : List Byte) :
    Except Unit (List Byte × Sock) :=
  if st.closed then Except.error ()
  else
    sendDataRecv dec
      { st with
        sent := st.sent ++ [toBytesBE4 (enc data).length ++ enc data],
        trace := st.trace ++ [NetEvent.sendFrame (toBytesBE4 (enc data).length ++ enc data)] }

/-- Security-checked tail of NetworkSocketConnector.receive_stream:
after the chunk is read, its rate is checked with check_data_rate and
its content with validate_data; a violation closes the socket and
yields None (no exception). -/
def receiveChecked (sec : NetworkSecurity) (ip : String) (now : Nat)
    (data : List Byte) (st : Sock) :
    Option (List Byte) × NetworkSecurity × Sock :=
  if (check_data_rate sec ip data.length now).1 = false then
    (none, (check_data_rate sec ip data.length now).2,
     sockClose { st with trace := st.trace ++ [NetEvent.checkRate data.length false] })
  else if validate_data (check_data_rate sec ip data.length now).2 data = false then
    (none, (check_data_rate sec ip data.length now).2,
     sockClose { st with trace := st.trace
        ++ [NetEvent.checkRate data.length true, NetEvent.validate data false] })
  else
    (some data, (check_data_rate sec ip data.length now).2,
     { st with trace := st.trace
        ++ [NetEvent.checkRate data.length true, NetEvent.validate data true] })

/-- NetworkSocketConnector.receive_stream: recv(buffer_size) — a
socket.error on a closed socket closes and yields None — then the
security-checked tail. -/
def receive_stream (sec : NetworkSecurity) (ip : String) (now : Nat)
    (buffer_size : Nat) (st : Sock) :
    Option (List Byte) × NetworkSecurity × Sock :=
  if st.closed then
    (none, sec, sockClose st)
  else
    receiveChecked sec ip now (st.incoming.take buffer_size)
      { st with
        incoming := st.incoming.drop buffer_size,
        trace := st.trace ++ [NetEvent.recvRaw (st.incoming.take buffer_size)] }

/-- Security-check events of a trace (calls to check_data_rate or
validate_data). -/
def isSecurityEvent : NetEvent → Bool
  | NetEvent.checkRate _ _ => true
  | NetEvent.validate _ _ => true
  | _ => false

/-- Reads of application data: the payload read of a frame, or the
raw chunk read of receive_stream (as opposed to the 4-byte framing
header). -/
def isAppRead : NetEvent → Bool
  | NetEvent.recvPayload _ _ => true
  | NetEvent.recvRaw _ => true
  | _ => false

/-- Does every read of application data in the trace come after at
least one data-rate check and at least one payload validation?  The
two accumulators record whether a check of each kind has been seen
yet. -/
def checksPrecedeReads : Bool → Bool → List NetEvent → Bool
  | _, _, [] => true
  | seenR, seenV, NetEvent.checkRate _ _ :: rest => checksPrecedeReads true seenV rest
  | seenR, seenV, NetEvent.validate _ _ :: rest => checksPrecedeReads seenR true rest
  | seenR, seenV, NetEvent.recvPayload _ _ :: rest =>
      seenR && seenV && checksPrecedeReads seenR seenV rest
  | seenR, seenV, NetEvent.recvRaw _ :: rest =>
      seenR && seenV && checksPrecedeReads seenR seenV rest
  | seenR, seenV, _ :: rest => checksPrecedeReads seenR seenV rest

/-- A socket holding one well-formed frame: the XOR-42 encryption of
the one-byte plaintext 0x01, length-prefixed. -/
def sockOneFrame : Sock :=
  { incoming := [0, 0, 0, 1, 43], sent := [], closed := false, trace := [] }

/-- A socket holding two well-formed frames: the XOR-42 encryptions
of the one-byte plaintexts 0x01 and 0x02, each length-prefixed. -/
def sockTwoFrames : Sock :=
  { incoming := [0, 0, 0, 1, 43, 0, 0, 0, 1, 40], sent := [], closed := false, trace := [] }

/-- An open socket whose peer sends nine bytes and closes. -/
def sockNine : Sock :=
  { incoming := [1, 2, 3, 4, 5, 6, 7, 8, 9], sent := [], closed := false, trace := [] }

/-- An open socket whose peer has closed without sending anything. -/
def sockEmpty : Sock :=
  { incoming := [], sent := [], closed := false, trace := [] }

/-- An open socket whose peer answers with a two-byte response frame
followed by one stray byte. -/
def sockResp : Sock :=
  { incoming := [0, 0, 0, 2, 7, 8, 9], sent := [], closed := false, trace := [] }

/-! ## Cipher lemmas and theorems -/

lemma paddingLength_pos (n : Nat) : 1 ≤ paddingLength n := by
  have h : n % 16 < 16 := Nat.mod_lt _ (by norm_num)
  unfold paddingLength
  omega

lemma paddingLength_le (n : Nat) : paddingLength n ≤ 16 := by
  unfold paddingLength
  omega

lemma getLast?_replicate_of_pos (n : Nat) (x : Byte) (h : 1 ≤ n) :
    (List.replicate n x).getLast? = some x := by
  induction n with
  | zero => omega
  | succ m ih =>
    cases m with
    | zero => rfl
    | succ k =>
      rw [List.replicate_succ, List.getLast?_cons]
      have hrep : (List.replicate (k + 1) x).getLast? = some x := ih (by omega)
      simp only [hrep, Option.getD_some]

lemma cbcPad_getLast? (p : List Byte) :
    (cbcPad p).getLast? = some (paddingLength p.length) := by
  unfold cbcPad
  rw [List.getLast?_append, getLast?_replicate_of_pos _ _ (paddingLength_pos _)]
  rfl

lemma cbcPad_length (p : List Byte) :
    (cbcPad p).length = p.length + paddingLength p.length := by
  unfold cbcPad
  simp

lemma cbcPad_strip (p : List Byte) :
    pySliceDropLast (cbcPad p) (paddingLength p.length) = p := by
  have hpos := paddingLength_pos p.length
  unfold pySliceDropLast
  rw [if_neg (by omega), cbcPad_length]
  rw [Nat.add_sub_cancel]
  unfold cbcPad
  exact List.take_left p _

/-- Claim C2: for every byte string p, including the empty string and
multi-block inputs, and every cipher variant with valid parameters
(XOR byte in range, AES library primitives satisfying the library's
round-trip and tag-length guarantees), decrypt (encrypt p) = p. -/
theorem cipher_roundtrip (k : Byte) (hk : k ≤ 255)
    (E D : List Byte → List Byte) (hED : ∀ x, D (E x) = x)
    (GE GD : List Byte → List Byte) (hG : ∀ x, GD (GE x) = x)
    (T : List Byte → List Byte) (hT : ∀ x, (T x).length = 16)
    (p : List Byte) :
    xorDecrypt k (xorEncrypt k p) = p
      ∧ aesCbcDecrypt D (aesCbcEncrypt E p) = some p
      ∧ aesGcmDecrypt GD T (aesGcmEncrypt GE T p) = some p := by
  refine ⟨?_, ?_, ?_⟩
  · unfold xorDecrypt xorEncrypt
    rw [List.map_map]
    have hfun : ∀ b ∈ p, (fun b => b ^^^ k) ((fun b => b ^^^ k) b) = b := by
      intro b _
      exact Nat.xor_cancel_right _ _
    calc p.map ((fun b => b ^^^ k) ∘ fun b => b ^^^ k)
        = p.map id := List.map_congr_left hfun
      _ = p := List.map_id p
  · unfold aesCbcDecrypt aesCbcEncrypt
    rw [hED]
    rw [cbcPad_getLast?]
    show some (pySliceDropLast (cbcPad p) (paddingLength p.length)) = some p
    rw [cbcPad_strip]
  · unfold aesGcmDecrypt aesGcmEncrypt pyTakeLast
    have hlen : (GE p ++ T (GE p)).length = (GE p).length + 16 := by
      simp [hT]
    rw [hlen, Nat.add_sub_cancel]
    rw [List.drop_left, List.take_left]
    rw [if_pos rfl, hG]

/-- Witness for claim C2 at a concrete plaintext and concrete valid
cipher parameters. -/
theorem cipher_roundtrip_witness :
    xorDecrypt 42 (xorEncrypt 42 [0, 1, 255]) = [0, 1, 255]
      ∧ aesCbcDecrypt id (aesCbcEncrypt id [0, 1, 255]) = some [0, 1, 255]
      ∧ aesGcmDecrypt id (fun _ => List.replicate 16 0)
          (aesGcmEncrypt id (fun _ => List.replicate 16 0) [0, 1, 255])
          = some [0, 1, 255] :=
  cipher_roundtrip 42 (by decide) id id (fun _ => rfl) id id (fun _ => rfl)
    (fun _ => List.replicate 16 0) (fun _ => by simp) [0, 1, 255]

/-- Claim C3 counterexample: with the library block cipher
instantiated to the identity permutation, decrypting sixteen zero
bytes reads the padding byte 0 — outside [1,16] — yet the decrypt
operation returns a value (the empty byte string) instead of raising
an error. -/
theorem cbc_bad_padding_counterexample :
    (id (List.replicate 16 0) : List Byte).getLast? = some 0
      ∧ aesCbcDecrypt id (List.replicate 16 0) = some [] := by
  constructor
  · decide
  · decide

/-- Claim C3 (amended): AES-CBC decrypt reads the padding count from
the final decrypted byte and strips that many bytes when the count is
between 1 and the data length; a padding byte of 0, or one exceeding
the data length, silently yields the empty byte string; no padding
validation is performed and no error is raised for padding bytes
outside [1,16] — decryption fails only when the decrypted data is
empty. -/
theorem cbc_decrypt_strips_unchecked (D : List Byte → List Byte) (data : List Byte) :
    (D data = [] → aesCbcDecrypt D data = none)
      ∧ (∀ n, (D data).getLast? = some n →
          aesCbcDecrypt D data = some (pySliceDropLast (D data) n))
      ∧ (∀ n, 1 ≤ n →
          pySliceDropLast (D data) n = (D data).take ((D data).length - n))
      ∧ (∀ n, n = 0 ∨ (D data).length ≤ n → pySliceDropLast (D data) n = []) := by
  refine ⟨?_, ?_, ?_, ?_⟩
  · intro h
    unfold aesCbcDecrypt
    rw [h]
    rfl
  · intro n h
    unfold aesCbcDecrypt
    rw [h]
  · intro n hn
    unfold pySliceDropLast
    rw [if_neg (by omega)]
  · intro n hn
    unfold pySliceDropLast
    rcases hn with h0 | hle
    · rw [if_pos h0]
    · rcases Nat.eq_zero_or_pos n with h0 | hpos
      · rw [if_pos h0]
      · rw [if_neg (by omega)]
        rw [Nat.sub_eq_zero_of_le hle]
        exact List.take_zero _

/-- Witness for claim C3 (amended) at a concrete decrypted buffer. -/
theorem cbc_decrypt_strips_unchecked_witness :
    aesCbcDecrypt id [5, 6, 2] = some (pySliceDropLast [5, 6, 2] 2)
      ∧ pySliceDropLast ([5, 6, 2] : List Byte) 2 = [5] :=
  ⟨(cbc_decrypt_strips_unchecked id [5, 6, 2]).2.1 2 (by decide), by decide⟩

/-- Claim C10: AES-CBC encrypt appends between 1 and 16 padding bytes
whose value equals the pad count; with a length-preserving library
cipher the ciphertext length is 16 * (len p / 16 + 1) — a positive
multiple of 16 strictly greater than the plaintext length — and the
empty plaintext encrypts to exactly 16 bytes. -/
theorem cbc_encrypt_length (E : List Byte → List Byte)
    (hE : ∀ x, (E x).length = x.length) (p : List Byte) :
    aesCbcEncrypt E p
        = E (p ++ List.replicate (paddingLength p.length) (paddingLength p.length))
      ∧ 1 ≤ paddingLength p.length ∧ paddingLength p.length ≤ 16
      ∧ (aesCbcEncrypt E p).length = 16 * (p.length / 16 + 1)
      ∧ p.length < (aesCbcEncrypt E p).length
      ∧ (p = [] → (aesCbcEncrypt E p).length = 16) := by
  have hmod : p.length % 16 < 16 := Nat.mod_lt _ (by norm_num)
  have hdm : 16 * (p.length / 16) + p.length % 16 = p.length :=
    Nat.div_add_mod p.length 16
  have hlen : (aesCbcEncrypt E p).length = p.length + paddingLength p.length := by
    unfold aesCbcEncrypt
    rw [hE, cbcPad_length]
  have hpad : paddingLength p.length = 16 - p.length % 16 := rfl
  refine ⟨rfl, paddingLength_pos _, paddingLength_le _, ?_, ?_, ?_⟩
  · rw [hlen, hpad]
    omega
  · rw [hlen]
    have := paddingLength_pos p.length
    omega
  · intro h
    subst h
    rw [hlen]
    rfl

/-- Witness for claim C10 at the empty plaintext and the identity
library cipher. -/
theorem cbc_encrypt_length_witness :
    (aesCbcEncrypt id ([] : List Byte)).length = 16
      ∧ 1 ≤ paddingLength (0 : Nat) :=
  ⟨(cbc_encrypt_length id (fun _ => rfl) []).2.2.2.2.2 rfl,
   (cbc_encrypt_length id (fun _ => rfl) []).2.1⟩

/-! ## Rate-limiter lemmas and theorems -/

lemma runConnCalls_nil (s : NetworkSecurity) (ip : String) :
    runConnCalls s ip [] = ([], s) := rfl

lemma runConnCalls_cons (s : NetworkSecurity) (ip : String) (t : Nat) (rest : List Nat) :
    runConnCalls s ip (t :: rest)
      = ((check_connection s ip t).1
            :: (runConnCalls (check_connection s ip t).2 ip rest).1,
         (runConnCalls (check_connection s ip t).2 ip rest).2) := rfl

lemma pruneConn_of_fresh (window now : Nat) (l : List Nat)
    (h : ∀ t ∈ l, now - t ≤ window) : pruneConn window now l = l := by
  cases l with
  | nil => rfl
  | cons t rest =>
    unfold pruneConn
    rw [if_neg]
    have := h t (by simp)
    omega

lemma pruneConn_of_stale (window now : Nat) (l : List Nat)
    (h : ∀ t ∈ l, now - t > window) : pruneConn window now l = [] := by
  induction l with
  | nil => rfl
  | cons t rest ih =>
    unfold pruneConn
    rw [if_pos (h t (by simp))]
    exact ih (fun x hx => h x (by simp [hx]))

lemma runConn_scenario (N W : Nat) (ip : String) :
    ∀ (ts : List Nat) (s : NetworkSecurity) (acc : List Nat),
      s.max_connections_per_ip = N → s.rate_window = W →
      s.connection_tracker ip = acc →
      (∀ x ∈ acc, ∀ t ∈ ts, t - x ≤ W) →
      (∀ x ∈ ts, ∀ y ∈ ts, y - x ≤ W) →
      ts ≠ [] →
      acc.length + ts.length = N + 1 →
      (runConnCalls s ip ts).1 = List.replicate (N - acc.length) true ++ [false]
        ∧ (runConnCalls s ip ts).2.connection_tracker ip = acc ++ ts.dropLast
        ∧ (runConnCalls s ip ts).2.max_connections_per_ip = N
        ∧ (runConnCalls s ip ts).2.rate_window = W := by
  intro ts
  induction ts with
  | nil =>
    intro s acc _ _ _ _ _ hne _
    exact absurd rfl hne
  | cons t rest ih =>
    intro s acc hN hW hacc hfresh hpair _ hlen
    have hprune : pruneConn s.rate_window t (s.connection_tracker ip) = acc := by
      rw [hacc]
      exact pruneConn_of_fresh _ _ _ (fun x hx => by
        have := hfresh x hx t (by simp)
        rwa [hW])
    cases rest with
    | nil =>
      have hlenacc : acc.length = N := by simpa using hlen
      have hstepF : check_connection s ip t = (false, updateConn s ip acc) := by
        unfold check_connection
        rw [hprune, hN, hlenacc, if_pos (show N ≥ N by omega)]
      rw [runConnCalls_cons, hstepF, runConnCalls_nil]
      dsimp only
      refine ⟨?_, ?_, by simp [updateConn, hN], by simp [updateConn, hW]⟩
      · simp [hlenacc]
      · simp [updateConn]
    | cons t2 rest2 =>
      have hlt : acc.length < N := by
        simp only [List.length_cons] at hlen
        omega
      have hstep : check_connection s ip t = (true, updateConn s ip (acc ++ [t])) := by
        unfold check_connection
        rw [hprune, hN, if_neg (by omega)]
      have happlied := ih (updateConn s ip (acc ++ [t])) (acc ++ [t])
        hN hW (by simp [updateConn])
        (by
          intro x hx u hu
          rcases List.mem_append.1 hx with hxa | hxt
          · exact hfresh x hxa u (by simp [hu])
          · have hxeq : x = t := by simpa using hxt
            subst hxeq
            exact hpair x (by simp) u (by simp [hu]))
        (fun x hx y hy => hpair x (by simp [hx]) y (by simp [hy]))
        (by simp)
        (by
          simp only [List.length_append, List.length_cons, List.length_nil] at hlen ⊢
          omega)
      rw [runConnCalls_cons, hstep]
      dsimp only
      refine ⟨?_, ?_, happlied.2.2.1, happlied.2.2.2⟩
      · rw [happlied.1]
        have hrep : N - acc.length = (N - (acc ++ [t]).length) + 1 := by
          simp only [List.length_append, List.length_cons, List.length_nil]
          omega
        rw [hrep, List.replicate_succ]
        simp
      · rw [happlied.2.1]
        simp

/-- Claim C4: starting from an empty tracker with
max_connections_per_window = N and window_seconds = W, the first N
admit calls within the window return true and the (N+1)th returns
false; once more than W seconds have elapsed since every recorded
connection, a further call returns true; and every call first prunes
timestamps older than W, rejects when the pruned count is at least N,
and otherwise appends the current time and accepts. -/
theorem rate_limiter_boundary (N W : Nat) (hN : 1 ≤ N) (ip : String)
    (s : NetworkSecurity) (ts : List Nat) (u : Nat)
    (hmax : s.max_connections_per_ip = N) (hwin : s.rate_window = W)
    (hempty : s.connection_tracker ip = [])
    (hlen : ts.length = N + 1)
    (hpair : ∀ x ∈ ts, ∀ y ∈ ts, y - x ≤ W)
    (hu : ∀ t ∈ ts, u - t > W) :
    (runConnCalls s ip ts).1 = List.replicate N true ++ [false]
      ∧ (check_connection (runConnCalls s ip ts).2 ip u).1 = true
      ∧ (∀ s' now,
          ((check_connection s' ip now).1 = false
            ↔ (pruneConn s'.rate_window now (s'.connection_tracker ip)).length
                ≥ s'.max_connections_per_ip)
          ∧ ((check_connection s' ip now).1 = true →
              (check_connection s' ip now).2.connection_tracker ip
                = pruneConn s'.rate_window now (s'.connection_tracker ip) ++ [now])
          ∧ ((check_connection s' ip now).1 = false →
              (check_connection s' ip now).2.connection_tracker ip
                = pruneConn s'.rate_window now (s'.connection_tracker ip))) := by
  have hrun := runConn_scenario N W ip ts s [] hmax hwin hempty
    (by intro x hx; simp at hx)
    hpair (by intro h; rw [h] at hlen; simp at hlen) (by simpa using hlen)
  refine ⟨by simpa using hrun.1, ?_, ?_⟩
  · unfold check_connection
    have hstale : pruneConn (runConnCalls s ip ts).2.rate_window u
        ((runConnCalls s ip ts).2.connection_tracker ip) = [] := by
      rw [hrun.2.2.2, hrun.2.1]
      apply pruneConn_of_stale
      intro t ht
      exact hu t (List.dropLast_subset _ (by simpa using ht))
    rw [hstale, hrun.2.2.1]
    rw [if_neg (by simp only [List.length_nil]; omega)]
  · intro s' now
    unfold check_connection
    by_cases h : (pruneConn s'.rate_window now (s'.connection_tracker ip)).length
        ≥ s'.max_connections_per_ip
    · rw [if_pos h]
      refine ⟨by simpa using h, ?_, ?_⟩
      · intro hfalse
        simp at hfalse
      · intro _
        simp [updateConn]
    · rw [if_neg h]
      refine ⟨by simpa using h, ?_, ?_⟩
      · intro _
        simp [updateConn]
      · intro htrue
        simp at htrue

/-- Witness for claim C4: two accepted calls then a rejection at
times 0, 1, 2 with a 10-second window, and acceptance again at time
13. -/
theorem rate_limiter_boundary_witness :
    (runConnCalls secSmall "a" [0, 1, 2]).1 = List.replicate 2 true ++ [false]
      ∧ (check_connection (runConnCalls secSmall "a" [0, 1, 2]).2 "a" 13).1 = true :=
  ⟨(rate_limiter_boundary 2 10 (by decide) "a" secSmall [0, 1, 2] 13 rfl rfl rfl
      (by decide) (by decide) (by decide)).1,
   (rate_limiter_boundary 2 10 (by decide) "a" secSmall [0, 1, 2] 13 rfl rfl rfl
      (by decide) (by decide) (by decide)).2.1⟩

/-- Claim C5: check_data_rate prunes entries older than the window,
sums the remaining byte counts, returns false exactly when that sum
plus the new byte count strictly exceeds max_bytes_per_window, and on
acceptance appends (now, byte_count) to the IP's data events. -/
theorem data_rate_admission (s : NetworkSecurity) (ip : String)
    (data_size now : Nat) :
    ((check_data_rate s ip data_size now).1 = false
      ↔ ((pruneData s.rate_window now (s.data_tracker ip)).map Prod.snd).sum
          + data_size > s.max_data_per_ip)
      ∧ ((check_data_rate s ip data_size now).1 = true →
          (check_data_rate s ip data_size now).2.data_tracker ip
            = pruneData s.rate_window now (s.data_tracker ip) ++ [(now, data_size)])
      ∧ ((check_data_rate s ip data_size now).1 = false →
          (check_data_rate s ip data_size now).2.data_tracker ip
            = pruneData s.rate_window now (s.data_tracker ip)) := by
  unfold check_data_rate
  by_cases h : ((pruneData s.rate_window now (s.data_tracker ip)).map Prod.snd).sum
      + data_size > s.max_data_per_ip
  · rw [if_pos h]
    refine ⟨by simpa using h, ?_, ?_⟩
    · intro hfalse
      simp at hfalse
    · intro _
      simp [updateData]
  · rw [if_neg h]
    refine ⟨by simpa using h, ?_, ?_⟩
    · intro _
      simp [updateData]
    · intro htrue
      simp at htrue

/-- Witness for claim C5: a 60-byte admission against a 100-byte
limit is accepted and recorded. -/
theorem data_rate_admission_witness :
    (check_data_rate secSmall "a" 60 0).1 = true
      ∧ (check_data_rate secSmall "a" 60 0).2.data_tracker "a" = [(0, 60)] := by
  have h := data_rate_admission secSmall "a" 60 0
  have htrue : (check_data_rate secSmall "a" 60 0).1 = true := by decide
  refine ⟨htrue, ?_⟩
  rw [h.2.1 htrue]
  decide

/-- Claim C9: a rejected admission never consumes quota — when
check_connection returns false no timestamp is appended, when
check_data_rate returns false no data event is appended, and the only
state change of a rejecting call is the pruning of entries older than
the rate window (all other fields and all other IPs' trackers are
untouched). -/
theorem rejection_consumes_no_quota (s : NetworkSecurity) (ip : String)
    (data_size now : Nat) :
    ((check_connection s ip now).1 = false →
        (check_connection s ip now).2
          = updateConn s ip (pruneConn s.rate_window now (s.connection_tracker ip)))
      ∧ ((check_data_rate s ip data_size now).1 = false →
          (check_data_rate s ip data_size now).2
            = updateData s ip (pruneData s.rate_window now (s.data_tracker ip))) := by
  constructor
  · intro hfalse
    unfold check_connection at hfalse ⊢
    by_cases h : (pruneConn s.rate_window now (s.connection_tracker ip)).length
        ≥ s.max_connections_per_ip
    · rw [if_pos h]
    · rw [if_neg h] at hfalse
      simp at hfalse
  · intro hfalse
    unfold check_data_rate at hfalse ⊢
    by_cases h : ((pruneData s.rate_window now (s.data_tracker ip)).map Prod.snd).sum
        + data_size > s.max_data_per_ip
    · rw [if_pos h]
    · rw [if_neg h] at hfalse
      simp at hfalse

/-- Witness for claim C9: with zero quota a connection is rejected
and the tracker stays empty; an oversized data admission is rejected
and the data tracker stays empty. -/
theorem rejection_consumes_no_quota_witness :
    (check_connection secZero "a" 0).1 = false
      ∧ (check_connection secZero "a" 0).2.connection_tracker "a" = []
      ∧ (check_data_rate secZero "a" 9 0).1 = false
      ∧ (check_data_rate secZero "a" 9 0).2.data_tracker "a" = [] := by
  have h := rejection_consumes_no_quota secZero "a" 9 0
  have hc : (check_connection secZero "a" 0).1 = false := by decide
  have hd : (check_data_rate secZero "a" 9 0).1 = false := by decide
  refine ⟨hc, ?_, hd, ?_⟩
  · rw [h.1 hc]
    decide
  · rw [h.2 hd]
    decide

/-! ## Protocol lemmas and theorems -/

@[simp] lemma isSecurityEvent_recvHeader (g : List Byte) :
    isSecurityEvent (NetEvent.recvHeader g) = false := rfl

@[simp] lemma isSecurityEvent_recvPayload (n : Nat) (g : List Byte) :
    isSecurityEvent (NetEvent.recvPayload n g) = false := rfl

@[simp] lemma isSecurityEvent_recvRaw (g : List Byte) :
    isSecurityEvent (NetEvent.recvRaw g) = false := rfl

@[simp] lemma isSecurityEvent_sendFrame (d : List Byte) :
    isSecurityEvent (NetEvent.sendFrame d) = false := rfl

@[simp] lemma isSecurityEvent_checkRate (n : Nat) (b : Bool) :
    isSecurityEvent (NetEvent.checkRate n b) = true := rfl

@[simp] lemma isSecurityEvent_validate (d : List Byte) (b : Bool) :
    isSecurityEvent (NetEvent.validate d b) = true := rfl

@[simp] lemma isSecurityEvent_closeSock :
    isSecurityEvent NetEvent.closeSock = false := rfl

lemma serverStep_filter (enc dec : List Byte → List Byte) (st : Sock) :
    ((serverStep enc dec st).1.trace).filter isSecurityEvent
      = st.trace.filter isSecurityEvent := by
  unfold serverStep sockClose
  split_ifs <;> simp [List.filter_append]

lemma serverLoop_filter (enc dec : List Byte → List Byte) :
    ∀ (fuel : Nat) (st : Sock),
      ((serverLoop enc dec fuel st).trace).filter isSecurityEvent
        = st.trace.filter isSecurityEvent := by
  intro fuel
  induction fuel with
  | zero => intro st; rfl
  | succ n ih =>
    intro st
    unfold serverLoop
    by_cases h : (serverStep enc dec st).2 = true
    · rw [if_pos h, ih, serverStep_filter]
    · rw [if_neg h, serverStep_filter]

lemma toBytesBE4_length (n : Nat) : (toBytesBE4 n).length = 4 := rfl

lemma take_toBytesBE4 (n : Nat) (l : List Byte) :
    (toBytesBE4 n ++ l).take 4 = toBytesBE4 n := by
  have h := List.take_left (toBytesBE4 n) l
  rwa [toBytesBE4_length] at h

lemma drop_toBytesBE4 (n : Nat) (l : List Byte) :
    (toBytesBE4 n ++ l).drop 4 = l := by
  have h := List.drop_left (toBytesBE4 n) l
  rwa [toBytesBE4_length] at h

lemma fromBytesBE_toBytesBE4 (n : Nat) (h : n < 4294967296) :
    fromBytesBE (toBytesBE4 n) = n := by
  unfold fromBytesBE toBytesBE4
  simp only [List.foldl]
  omega

/-- Claim C1 counterexample: the server handles a well-formed inbound
message — its trace contains a read of application data — yet no
data-rate check and no payload validation occur anywhere in the run,
let alone before the read: SecureDataTransmitter.start_server never
consults NetworkSecurity. -/
theorem inbound_checks_counterexample :
    (start_server (xorEncrypt 42) (xorDecrypt 42) sockOneFrame).trace.any isAppRead = true
      ∧ checksPrecedeReads false false
          (start_server (xorEncrypt 42) (xorDecrypt 42) sockOneFrame).trace = false :=
  ⟨by decide, by decide⟩

/-- Claim C1 (amended): the payload security checks live in
NetworkSocketConnector.receive_stream, not in the SecureDataTransmitter
paths.  receive_stream reads a chunk, then checks its rate with
check_data_rate and its content with validate_data before returning
it; a violation closes the connection and yields None — no response
and no application error.  SecureDataTransmitter.start_server and
send_data perform no security checks at all. -/
theorem checks_only_in_receive_stream (sec : NetworkSecurity) (ip : String)
    (now buffer_size : Nat) (st : Sock) (enc dec : List Byte → List Byte)
    (fuel : Nat) (data req : List Byte) :
    ((receive_stream sec ip now buffer_size st).1 = none →
        (receive_stream sec ip now buffer_size st).2.2.closed = true
          ∧ (receive_stream sec ip now buffer_size st).2.2.sent = st.sent)
      ∧ ((receive_stream sec ip now buffer_size st).1 = some data →
          data = st.incoming.take buffer_size
            ∧ (receive_stream sec ip now buffer_size st).2.2.trace
                = st.trace ++ [NetEvent.recvRaw data,
                    NetEvent.checkRate data.length true, NetEvent.validate data true])
      ∧ (serverLoop enc dec fuel st).trace.filter isSecurityEvent
          = st.trace.filter isSecurityEvent
      ∧ (∀ r st', send_data enc dec st req = Except.ok (r, st') →
          st'.trace.filter isSecurityEvent = st.trace.filter isSecurityEvent) := by
  refine ⟨?_, ?_, serverLoop_filter enc dec fuel st, ?_⟩
  · intro hnone
    unfold receive_stream receiveChecked at hnone ⊢
    split_ifs at hnone ⊢ <;> simp [sockClose] at hnone ⊢
  · intro hsome
    unfold receive_stream receiveChecked at hsome ⊢
    split_ifs at hsome ⊢ <;> simp [sockClose] at hsome ⊢
    rcases hsome with ⟨rfl⟩
    exact ⟨rfl, by simp⟩
  · intro r st' h
    unfold send_data sendDataRecv at h
    split_ifs at h
    · rw [Except.ok.injEq, Prod.mk.injEq] at h
      rw [← h.2]
      simp [List.filter_append]
    · rw [Except.ok.injEq, Prod.mk.injEq] at h
      rw [← h.2]
      simp [List.filter_append]

/-- Witness for claim C1 (amended): a nine-byte chunk against a
five-byte limit is rejected by the data-rate check; the connection is
closed and nothing is sent. -/
theorem checks_only_in_receive_stream_witness :
    (receive_stream secZero "a" 0 1024 sockNine).2.2.closed = true
      ∧ (receive_stream secZero "a" 0 1024 sockNine).2.2.sent = sockNine.sent :=
  (checks_only_in_receive_stream secZero "a" 0 1024 sockNine
    (xorEncrypt 42) (xorDecrypt 42) 3 [] []).1 (by decide)

/-- Claim C6, code evaluated at the failing input: on a connection
delivering two well-formed frames, the server loop echoes the first
frame, closes the socket in its finally clause, and never reads or
echoes the second frame — the second frame is still sitting unread in
the receive stream when the loop exits. -/
theorem server_echoes_only_first_frame :
    (start_server (xorEncrypt 42) (xorDecrypt 42) sockTwoFrames).sent
        = [[0, 0, 0, 1, 43]]
      ∧ (start_server (xorEncrypt 42) (xorDecrypt 42) sockTwoFrames).incoming
        = [0, 0, 0, 1, 40]
      ∧ [0, 0, 0, 1, 40] ∉ (start_server (xorEncrypt 42) (xorDecrypt 42) sockTwoFrames).sent
      ∧ (start_server (xorEncrypt 42) (xorDecrypt 42) sockTwoFrames).closed = true :=
  ⟨by decide, by decide, by decide, by decide⟩

/-- Claim C7: after writing the request frame, send_data reads the
4-byte response length and then exactly that many response bytes,
consuming nothing else from the stream; when the peer closed before
sending any response bytes it returns the empty byte string as an
ordinary non-error result (Except.ok, not Except.error). -/
theorem client_response_path (enc dec : List Byte → List Byte) (st : Sock)
    (data resp rest : List Byte) (hopen : st.closed = false) :
    (st.incoming = [] →
        send_data enc dec st data
          = Except.ok ([], { st with
              sent := st.sent ++ [toBytesBE4 (enc data).length ++ enc data],
              trace := st.trace
                ++ [NetEvent.sendFrame (toBytesBE4 (enc data).length ++ enc data),
                    NetEvent.recvHeader []] }))
      ∧ (st.incoming = toBytesBE4 resp.length ++ (resp ++ rest) →
          resp.length < 4294967296 →
          send_data enc dec st data
            = Except.ok (dec resp, { st with
                incoming := rest,
                sent := st.sent ++ [toBytesBE4 (enc data).length ++ enc data],
                trace := st.trace
                  ++ [NetEvent.sendFrame (toBytesBE4 (enc data).length ++ enc data),
                      NetEvent.recvHeader (toBytesBE4 resp.length),
                      NetEvent.recvPayload resp.length resp] })) := by
  constructor
  · intro hinc
    unfold send_data
    rw [if_neg (by simp [hopen])]
    unfold sendDataRecv
    simp [hinc]
  · intro hinc hlt
    unfold send_data
    rw [if_neg (by simp [hopen])]
    unfold sendDataRecv
    simp only [hinc]
    rw [take_toBytesBE4, drop_toBytesBE4]
    rw [if_neg (by simp [toBytesBE4])]
    rw [fromBytesBE_toBytesBE4 _ hlt]
    rw [List.take_left, List.drop_left]
    simp

/-- Witness for claim C7 at concrete sockets: a peer that closed
without replying yields the empty non-error response; a peer that
answers with a framed two-byte response yields those bytes decrypted,
leaving the stray trailing byte unread. -/
theorem client_response_path_witness :
    send_data id id sockEmpty [5]
        = Except.ok ([], { incoming := [],
                           sent := [[0, 0, 0, 1, 5]],
                           closed := false,
                           trace := [NetEvent.sendFrame [0, 0, 0, 1, 5],
                             NetEvent.recvHeader []] })
      ∧ send_data id id sockResp [5]
        = Except.ok ([7, 8], { incoming := [9],
                               sent := [[0, 0, 0, 1, 5]],
                               closed := false,
                               trace := [NetEvent.sendFrame [0, 0, 0, 1, 5],
                                 NetEvent.recvHeader [0, 0, 0, 2],
                                 NetEvent.recvPayload 2 [7, 8]] }) := by
  constructor
  · have h := (client_response_path id id sockEmpty [5] [] [] rfl).1 rfl
    rw [h]
    rfl
  · have h := (client_response_path id id sockResp [5] [7, 8] [9] rfl).2 (by decide) (by decide)
    rw [h]
    rfl

end SaneData
